import Mathlib

/-!
Shallow embedding of the pixel-marketplace core of this repository.

The embedded code is:
* `src/pages/api/pixels/buy.js` — the purchase handler (`handler`) and the
  pure price function `priceCentsForBuyCount`;
* `src/pages/api/stripe/webhook.js` — two route handlers: the Stripe
  `checkout.session.completed` credit webhook, and the `GET /pixels/get`
  window read handler that follows it in the same file.

Database rows (Prisma `pixel`, `user`, `purchase` tables) are modelled as
association lists keyed by `Int` cell index / `String` user id.  JS numbers
that the code checks with `Number.isInteger` are modelled as `Option Int`
(`none` = the value was not an integer, e.g. `NaN`).  The Prisma
`$transaction` is modelled as a function that either produces the fully
updated state or fails with no effect, matching its rollback semantics.
-/

/-- Database row of the `pixel` table: color, intensity, buyCount. -/
structure Cell where
  color : String
  intensity : Int
  buyCount : Int
deriving Repr, DecidableEq

/-- Database row of the `purchase` table (the audit log), as created by
`tx.purchase.create` in buy.js. -/
structure PurchaseRecord where
  userId : String
  pixelIndex : Int
  color : String
  intensity : Int
  countAfter : Int
  priceCents : Int
deriving Repr, DecidableEq

/-- The persistent state touched by the embedded handlers: sparse pixel
rows, user wallet balances (`balanceCents`), and the append-only purchase
records. -/
structure State where
  pixels : List (Int × Cell)
  users : List (String × Int)
  purchases : List PurchaseRecord
deriving Repr, DecidableEq

/-- Lookup of the first binding of a key in an association list
(`prisma.findUnique` on a keyed table). -/
def assocFind {α β : Type} [DecidableEq α] (k : α) : List (α × β) → Option β
  | [] => none
  | (k', v) :: t => if k' = k then some v else assocFind k t

/-- Update of the first binding of a key in an association list; `none` when
the key is absent (`prisma.update` throws when the row does not exist). -/
def assocUpdate {α β : Type} [DecidableEq α] (k : α) (f : β → β) :
    List (α × β) → Option (List (α × β))
  | [] => none
  | (k', v) :: t =>
    if k' = k then some ((k', f v) :: t)
    else
      match assocUpdate k f t with
      | none => none
      | some t' => some ((k', v) :: t')

/-- Price function of buy.js line 5: `Math.pow(2, Math.max(0, n)) * 1`,
where `n` is the buyCount before the purchase. -/
def priceCentsForBuyCount (n : Int) : Int :=
  2 ^ (max 0 n).toNat * 1

/-- Character class `[0-9A-Fa-f]` of the color regex. -/
def isHexDigit (c : Char) : Bool :=
  (('0' ≤ c ∧ c ≤ '9') ∨ ('A' ≤ c ∧ c ≤ 'F') ∨ ('a' ≤ c ∧ c ≤ 'f') : Prop)

/-- Test of the color regex of buy.js line 21: a hash sign followed by
exactly six hex digits. -/
def validColor (s : String) : Bool :=
  match s.data with
  | c :: rest => c = '#' && rest.length = 6 && rest.all isHexDigit
  | [] => false

/-- Request body of `POST /pixels/buy`; `pixelIndex`/`intensity` are `none`
when `Number(...)` of the supplied value is not an integer. -/
structure BuyRequest where
  pixelIndex : Option Int
  color : String
  intensity : Option Int
deriving Repr, DecidableEq

/-- Responses of the buy handler, one constructor per exit of buy.js:
401, the three 400 validation exits, 402, a thrown/rolled-back server
error, and the 200 body `(priceCents, buyCountAfter)`. -/
inductive BuyResponse where
  | authRequired
  | invalidIndex
  | invalidColor
  | invalidIntensity
  | insufficientFunds
  | serverError
  | ok (priceCents : Int) (buyCountAfter : Int)
deriving Repr, DecidableEq

/-- True exactly on the 200 response. -/
def BuyResponse.isOk : BuyResponse → Bool
  | .ok _ _ => true
  | _ => false

/-- True exactly on the three 400 validation responses of buy.js
lines 16-24 (the spec's `InvalidInput`). -/
def BuyResponse.isInvalidInput : BuyResponse → Bool
  | .invalidIndex => true
  | .invalidColor => true
  | .invalidIntensity => true
  | _ => false

/-- Everything the buy handler computes before entering `$transaction`:
the validated inputs plus the cached `existing` row, cached `buyCount`
and cached `priceCents` of buy.js lines 27-29. -/
structure Plan where
  uid : String
  idx : Int
  color : String
  inten : Int
  existing : Option Cell
  buyCount : Int
  priceCents : Int
deriving Repr, DecidableEq

/-- Line 28 of buy.js: `existing ? existing.buyCount : 0`, the buyCount
before the purchase, read from the pixel row (0 when absent). -/
def cellBuyCount (st : State) (idx : Int) : Int :=
  match assocFind idx st.pixels with
  | some c => c.buyCount
  | none => 0

/-- Lines 13-34 of buy.js: session check, input validation, the reads of
the pixel row and the wallet balance, and the advisory balance check.
All reads happen here, before the transaction. -/
def buyPhase1 (st : State) (sessionUserId : Option String) (req : BuyRequest) :
    Except BuyResponse Plan :=
  match sessionUserId with
  | none => .error .authRequired
  | some uid =>
    match req.pixelIndex with
    | none => .error .invalidIndex
    | some idx =>
      if ¬(0 ≤ idx ∧ idx < 1000000) then .error .invalidIndex
      else if ¬ validColor req.color then .error .invalidColor
      else
        match req.intensity with
        | none => .error .invalidIntensity
        | some inten =>
          if ¬(0 ≤ inten ∧ inten ≤ 30) then .error .invalidIntensity
          else
            let existing := assocFind idx st.pixels
            let buyCount := cellBuyCount st idx
            let priceCents := priceCentsForBuyCount buyCount
            match assocFind uid st.users with
            | none => .error .serverError
            | some balance =>
              if balance < priceCents then .error .insufficientFunds
              else .ok ⟨uid, idx, req.color, inten, existing, buyCount, priceCents⟩

/-- Lines 37-68 of buy.js: the `$transaction` body.  Debits the wallet by
the cached price, updates the pixel row (increment of the stored count)
when the cached `existing` was present and creates it otherwise, and
appends the purchase record built from the cached values.  `none` models a
thrown transaction (missing row on update, unique-key conflict on create):
Prisma rolls the whole unit back, so the caller keeps the old state. -/
def buyTx (st : State) (p : Plan) : Option State :=
  match assocUpdate p.uid (fun b => b - p.priceCents) st.users with
  | none => none
  | some users' =>
    let pixels? :=
      match p.existing with
      | some _ =>
        assocUpdate p.idx (fun c => Cell.mk p.color p.inten (c.buyCount + 1)) st.pixels
      | none =>
        match assocFind p.idx st.pixels with
        | some _ => none
        | none => some ((p.idx, Cell.mk p.color p.inten 1) :: st.pixels)
    match pixels? with
    | none => none
    | some pixels' =>
      some { pixels := pixels'
             users := users'
             purchases := st.purchases ++
               [⟨p.uid, p.idx, p.color, p.inten, p.buyCount + 1, p.priceCents⟩] }

/-- The whole buy.js handler: reads and checks, then the transaction; a
failed transaction surfaces as a 500 with the state unchanged, a committed
one returns `(priceCents, buyCount + 1)` as in lines 67-70. -/
def buyHandler (st : State) (sessionUserId : Option String) (req : BuyRequest) :
    State × BuyResponse :=
  match buyPhase1 st sessionUserId req with
  | .error r => (st, r)
  | .ok p =>
    match buyTx st p with
    | none => (st, .serverError)
    | some st' => (st', .ok p.priceCents (p.buyCount + 1))

/-- Two buy requests racing on the same initial state: both perform their
reads (phase 1) against `st`, then their transactions commit in order.
This is the schedule two concurrent HTTP requests produce in buy.js, whose
reads at lines 27-32 are separate awaits outside the transaction. -/
def interleavedBuys (st : State) (uidA uidB : String) (reqA reqB : BuyRequest) :
    Option State :=
  match buyPhase1 st (some uidA) reqA, buyPhase1 st (some uidB) reqB with
  | .ok pA, .ok pB =>
    match buyTx st pA with
    | none => none
    | some st1 => buyTx st1 pB
  | _, _ => none

/-- Sequential resubmission of one buy request: the handler is applied k
times, each attempt starting from the state the previous one left, with
the responses collected in order. -/
def buyIter (uid : String) (req : BuyRequest) : Nat → State → State × List BuyResponse
  | 0, st => (st, [])
  | Nat.succ n, st =>
    let r := buyHandler st (some uid) req
    let rest := buyIter uid req n r.1
    (rest.1, r.2 :: rest.2)

/-- Responses of the `GET /pixels/get` handler (second route in
webhook.js): 400 on invalid range, else the compact mapping
index ↦ (color, intensity, buyCount). -/
inductive GetResponse where
  | invalidRange
  | ok (cells : List (Int × (String × Int × Int)))
deriving Repr, DecidableEq

/-- The `GET /pixels/get` handler of webhook.js lines 48-65: defaults
`start = 0`, `end = 10000`, rejects `start < 0 ∨ end ≤ start ∨
end - start > 20000`, else returns the purchased rows with
`start ≤ id < end` as a compact map.  It performs no writes, which the
return type makes explicit. -/
def pixelsGetHandler (st : State) (startQ endQ : Option Int) : GetResponse :=
  let s := startQ.getD 0
  let e := endQ.getD 10000
  if s < 0 ∨ e ≤ s ∨ e - s > 20000 then .invalidRange
  else
    .ok ((st.pixels.filter (fun q => s ≤ q.1 ∧ q.1 < e)).map
      (fun q => (q.1, (q.2.color, q.2.intensity, q.2.buyCount))))

/-- Stripe event as the webhook handler reads it: an event id (never
consulted by the code), the event type, `metadata.userId`,
`amount_total` and `metadata.amountCents` (absent values are `none`). -/
structure StripeEvent where
  id : String
  type : String
  userId : Option String
  amountTotal : Option Int
  metaAmountCents : Option Int
deriving Repr, DecidableEq

/-- JS `a || k` on a possibly-absent number: absent and `0` are falsy. -/
def orFalsy (a : Option Int) (k : Int) : Int :=
  match a with
  | some x => if x = 0 then k else x
  | none => k

/-- Line 32 of webhook.js:
`Number(session.amount_total || session.metadata?.amountCents || 0)`. -/
def eventAmount (e : StripeEvent) : Int :=
  orFalsy e.amountTotal (orFalsy e.metaAmountCents 0)

/-- The Stripe webhook handler of webhook.js lines 28-42: on a
`checkout.session.completed` event with a truthy userId and positive
amount, increment the user's balance; every other case (including a
missing user row, whose thrown error is caught) leaves the state
unchanged.  Nothing is recorded about the event id. -/
def webhookHandler (st : State) (e : StripeEvent) : State :=
  if e.type = "checkout.session.completed" then
    match e.userId with
    | none => st
    | some uid =>
      if uid = "" then st
      else
        let amount := eventAmount e
        if amount > 0 then
          match assocUpdate uid (fun b => b + amount) st.users with
          | none => st
          | some users' => { st with users := users' }
        else st
  else st

/-! Concrete fixtures used by witnesses and counterexamples. -/

/-- Fresh store, one account with 100 cents. -/
def stFresh : State := ⟨[], [("u", 100)], []⟩

/-- Valid buy request for virgin cell 42 (spec scenario A). -/
def reqCell42 : BuyRequest := ⟨some 42, "#ff0000", some 10⟩

/-- Account with exactly 1 cent, for the concurrent-debit schedule. -/
def stOneCent : State := ⟨[], [("u", 1)], []⟩

/-- Valid buy request for virgin cell 0. -/
def reqCell0 : BuyRequest := ⟨some 0, "#ff0000", some 0⟩

/-- Valid buy request for virgin cell 1. -/
def reqCell1 : BuyRequest := ⟨some 1, "#ff0000", some 0⟩

/-- Store where cell 7 was already bought once (buyCount 1), account has
100 cents. -/
def stCell7Once : State := ⟨[(7, ⟨"#00ff00", 0, 1⟩)], [("u", 100)], []⟩

/-- Valid buy request for cell 7. -/
def reqCell7 : BuyRequest := ⟨some 7, "#ff0000", some 10⟩

/-- Account with zero balance. -/
def stZeroBalance : State := ⟨[], [("u", 0)], []⟩

/-- One completed-checkout event crediting 500 cents to account u. -/
def evtTopUp : StripeEvent :=
  ⟨"evt_1", "checkout.session.completed", some "u", some 500, none⟩

/-- Validation predicate of the claim for C7: the three checks of buy.js
lines 16-24 stated over the request alone. -/
def validRequest (req : BuyRequest) : Bool :=
  (match req.pixelIndex with
   | some i => decide (0 ≤ i ∧ i < 1000000)
   | none => false) &&
  validColor req.color &&
  (match req.intensity with
   | some j => decide (0 ≤ j ∧ j ≤ 30)
   | none => false)

/-- The three effects of a committed purchase, stated over the before and
after states: the wallet debit by the charged price, the cell write
(increment of the stored count on update, creation with count 1
otherwise), and the append of exactly one audit record carrying the
charged price and the count after. -/
def AllThreeEffects (st st' : State) (p : Plan) : Prop :=
  assocUpdate p.uid (fun b => b - p.priceCents) st.users = some st'.users ∧
  (match p.existing with
   | some _ =>
     assocUpdate p.idx (fun c => Cell.mk p.color p.inten (c.buyCount + 1))
       st.pixels = some st'.pixels
   | none => st'.pixels = (p.idx, Cell.mk p.color p.inten 1) :: st.pixels) ∧
  st'.purchases = st.purchases ++
    [⟨p.uid, p.idx, p.color, p.inten, p.buyCount + 1, p.priceCents⟩]

/-! Theorems. -/

/-- C10: `priceCentsForBuyCount` is total on `Int`; every input `n ≤ 0`
yields exactly 1 cent (the exponent is clamped by `Math.max(0, n)`), and
the result is a positive integer for every integer input `n ≤ 52`. -/
theorem price_total_clamps_nonpositive :
    (∀ n : Int, n ≤ 0 → priceCentsForBuyCount n = 1) ∧
    (∀ n : Int, n ≤ 52 → 0 < priceCentsForBuyCount n) := by
  constructor
  · intro n hn
    have h0 : max 0 n = 0 := by omega
    rw [priceCentsForBuyCount, h0]
    rfl
  · intro n _
    rw [priceCentsForBuyCount, mul_one]
    positivity

/-- Witness for C10 at the concrete inputs -3 and 52. -/
theorem price_total_clamps_nonpositive_witness :
    priceCentsForBuyCount (-3) = 1 ∧ 0 < priceCentsForBuyCount 52 :=
  ⟨price_total_clamps_nonpositive.1 (-3) (by decide),
   price_total_clamps_nonpositive.2 52 (by decide)⟩

/-- C6: a window request with both bounds supplied is rejected with
`InvalidRange` exactly when the range violates `0 ≤ start < end` and
`end - start ≤ 20000`; the handler performs no writes (its type returns no
state).  In particular `window(0, 20000)` is accepted, `window(0, 20001)`
and `window(5, 3)` are rejected. -/
theorem window_range_validation_iff (st : State) (s e : Int) :
    pixelsGetHandler st (some s) (some e) = .invalidRange ↔
      ¬(0 ≤ s ∧ s < e ∧ e - s ≤ 20000) := by
  unfold pixelsGetHandler
  simp only [Option.getD_some]
  split
  · rename_i h
    exact iff_of_true rfl (by omega)
  · rename_i h
    exact iff_of_false (by simp) (by omega)

/-- C9: when the `start` or `end` query parameter is omitted the handler
substitutes the defaults `start = 0`, `end = 10000`, and the all-default
window is served (it is a valid range, not a rejection). -/
theorem window_defaults_when_params_omitted (st : State) (s e : Int) :
    pixelsGetHandler st none (some e) = pixelsGetHandler st (some 0) (some e) ∧
    pixelsGetHandler st (some s) none = pixelsGetHandler st (some s) (some 10000) ∧
    pixelsGetHandler st none none = pixelsGetHandler st (some 0) (some 10000) ∧
    ∃ out, pixelsGetHandler st none none = .ok out := by
  refine ⟨rfl, rfl, rfl, ?_⟩
  unfold pixelsGetHandler
  norm_num

/-- C3 evidence: two concurrent purchases of the distinct virgin cells 0
and 1 by the account holding 1 cent, with both advisory balance checks
reading the initial state before either transaction commits.  Both
transactions commit (the result is `some`) and the final balance is -1:
the in-transaction debit is an unconditional decrement with no
non-negativity re-verification. -/
theorem interleaved_buys_drive_balance_negative :
    (interleavedBuys stOneCent "u" "u" reqCell0 reqCell1).map
      (fun s => assocFind "u" s.users) = some (some (-1)) := by
  rfl

/-- C4 evidence: two concurrent purchases of cell 7 (already bought once),
both of whose reads of `buyCount` happen against the initial state before
either transaction commits.  Both commits succeed, the stored count ends
at 3, yet both purchases were charged 2 cents with audit `countAfter = 2`:
two purchases priced off the same pre-increment count, and the third
successful purchase of the cell was not charged `basePriceCents * 2^2`. -/
theorem interleaved_buys_price_off_stale_count :
    (interleavedBuys stCell7Once "u" "u" reqCell7 reqCell7).map
      (fun s => (assocFind 7 s.pixels,
                 s.purchases.map (fun r => (r.priceCents, r.countAfter)))) =
    some (some ⟨"#ff0000", 10, 3⟩, [(2, 2), (2, 2)]) := by
  rfl

/-- C8 counterexample: delivering the identical completed-checkout event
(same event id, the logical payment reference) twice to the webhook
credits the account twice — 500 cents after one delivery, 1000 after the
second — so `credit` does not de-duplicate and the balance does not
increase "exactly once". -/
theorem credit_double_delivery_double_credits :
    (webhookHandler stZeroBalance evtTopUp).users = [("u", 500)] ∧
    (webhookHandler (webhookHandler stZeroBalance evtTopUp) evtTopUp).users
      = [("u", 1000)] :=
  ⟨rfl, rfl⟩

/-- Helper: a successful `assocUpdate` found a binding, and the updated
list binds the key to the image of the old value. -/
theorem assocUpdate_find {α β : Type} [DecidableEq α] (k : α) (f : β → β) :
    ∀ (l l' : List (α × β)), assocUpdate k f l = some l' →
      ∃ v, assocFind k l = some v ∧ assocFind k l' = some (f v) := by
  intro l
  induction l with
  | nil => intro l' h; simp [assocUpdate] at h
  | cons p t ih =>
    intro l' h
    obtain ⟨k', v⟩ := p
    rw [assocUpdate] at h
    by_cases hk : k' = k
    · rw [if_pos hk] at h
      refine ⟨v, by simp [assocFind, hk], ?_⟩
      obtain rfl : (k', f v) :: t = l' := by injection h
      simp [assocFind, hk]
    · rw [if_neg hk] at h
      cases ht : assocUpdate k f t with
      | none => rw [ht] at h; exact absurd h (by simp)
      | some t' =>
        rw [ht] at h
        obtain rfl : (k', v) :: t' = l' := by injection h
        obtain ⟨w, h1, h2⟩ := ih t' ht
        exact ⟨w, by simp [assocFind, hk, h1], by simp [assocFind, hk, h2]⟩

/-- Helper: when a binding for the key exists, `assocUpdate` succeeds and
rebinds the key to the image of the old value. -/
theorem assocFind_assocUpdate {α β : Type} [DecidableEq α] (k : α) (f : β → β) :
    ∀ (l : List (α × β)) (v : β), assocFind k l = some v →
      ∃ l', assocUpdate k f l = some l' ∧ assocFind k l' = some (f v) := by
  intro l
  induction l with
  | nil => intro v h; simp [assocFind] at h
  | cons p t ih =>
    intro v h
    obtain ⟨k', w⟩ := p
    rw [assocFind] at h
    by_cases hk : k' = k
    · rw [if_pos hk] at h
      obtain rfl : w = v := by injection h
      exact ⟨(k', f w) :: t, by rw [assocUpdate, if_pos hk], by simp [assocFind, hk]⟩
    · rw [if_neg hk] at h
      obtain ⟨t', h1, h2⟩ := ih v h
      refine ⟨(k', w) :: t', ?_, by simp [assocFind, hk, h2]⟩
      rw [assocUpdate, if_neg hk, h1]

/-- C8 amended: the webhook applies the credit on every delivery of a
completed-checkout event with a truthy userId and positive amount — the
state keeps no record of processed payment references, so nothing
de-duplicates and k deliveries of the same logical payment credit k
times. -/
theorem credit_applied_every_delivery (st : State) (e : StripeEvent)
    (uid : String) (b : Int)
    (htype : e.type = "checkout.session.completed")
    (huid : e.userId = some uid) (hne : uid ≠ "")
    (hamt : 0 < eventAmount e)
    (hbal : assocFind uid st.users = some b) :
    assocFind uid (webhookHandler st e).users = some (b + eventAmount e) := by
  obtain ⟨l', h1, h2⟩ :=
    assocFind_assocUpdate uid (fun x => x + eventAmount e) st.users b hbal
  unfold webhookHandler
  rw [htype, huid]
  simp only [if_pos rfl, if_neg hne, if_pos hamt, h1]
  exact h2

/-- Witness for the amended C8 at a concrete state and event. -/
theorem credit_applied_every_delivery_witness :
    assocFind "u" (webhookHandler stZeroBalance evtTopUp).users
      = some (0 + eventAmount evtTopUp) :=
  credit_applied_every_delivery stZeroBalance evtTopUp "u" 0
    rfl rfl (by decide) (by decide) rfl

/-- C7: an authenticated purchase request is answered with one of the
three `InvalidInput` (400) responses exactly when it fails one of the
three checks of buy.js lines 16-24 (index an integer in `[0, 1000000)`,
color matching the strict 6-hex-digit pattern, intensity an integer in
`[0, 30]`), and such a rejection changes no state; a request passing all
three checks is never answered with `InvalidInput`. -/
theorem buy_validation_invalid_input_iff (st : State) (uid : String)
    (req : BuyRequest) :
    ((buyHandler st (some uid) req).2.isInvalidInput = !validRequest req) ∧
    ((buyHandler st (some uid) req).2.isInvalidInput = true →
      (buyHandler st (some uid) req).1 = st) := by
  unfold buyHandler buyPhase1 validRequest
  cases hpi : req.pixelIndex with
  | none => simp [BuyResponse.isInvalidInput]
  | some idx =>
    by_cases h1 : 0 ≤ idx ∧ idx < 1000000
    · by_cases h2 : validColor req.color = true
      · cases hin : req.intensity with
        | none => simp [h1, h2, BuyResponse.isInvalidInput]
        | some j =>
          by_cases h3 : 0 ≤ j ∧ j ≤ 30
          · cases hu : assocFind uid st.users with
            | none => simp [h1, h2, h3, hu, BuyResponse.isInvalidInput]
            | some bal =>
              by_cases h4 : bal < priceCentsForBuyCount (cellBuyCount st idx)
              · simp [h1, h2, h3, hu, h4, BuyResponse.isInvalidInput]
              · simp only [h1, h2, h3, hu, h4, decide_eq_true_eq, not_true,
                  not_false_eq_true, and_self, if_false, ite_false, if_neg,
                  Bool.and_true, Bool.and_self, Bool.not_true]
                split <;> simp [BuyResponse.isInvalidInput]
          · simp [h1, h2, h3, BuyResponse.isInvalidInput]
      · simp [h1, h2, BuyResponse.isInvalidInput]
    · simp [h1, BuyResponse.isInvalidInput]

/-- Helper: a committed transaction applies exactly the three effects. -/
theorem buyTx_effects (st : State) (p : Plan) (st' : State)
    (h : buyTx st p = some st') : AllThreeEffects st st' p := by
  unfold buyTx at h
  cases hu : assocUpdate p.uid (fun b => b - p.priceCents) st.users with
  | none => rw [hu] at h; cases h
  | some users' =>
    rw [hu] at h
    cases hex : p.existing with
    | some c =>
      simp only [hex] at h
      cases hp : assocUpdate p.idx
          (fun c => Cell.mk p.color p.inten (c.buyCount + 1)) st.pixels with
      | none => rw [hp] at h; cases h
      | some pixels' =>
        rw [hp] at h
        obtain rfl : _ = st' := by injection h
        exact ⟨hu, by simp [AllThreeEffects, hex, hp], rfl⟩
    | none =>
      simp only [hex] at h
      cases hf : assocFind p.idx st.pixels with
      | some _ => rw [hf] at h; cases h
      | none =>
        rw [hf] at h
        obtain rfl : _ = st' := by injection h
        exact ⟨hu, by simp [AllThreeEffects, hex], rfl⟩

/-- Helper: the pre-transaction phase never exits with the 200 response as
an error value. -/
theorem buyPhase1_error_not_ok (st : State) (uid? : Option String)
    (req : BuyRequest) (r : BuyResponse)
    (h : buyPhase1 st uid? req = .error r) : r.isOk = false := by
  cases uid? with
  | none => simp [buyPhase1] at h; subst h; rfl
  | some uid =>
    cases hpi : req.pixelIndex with
    | none => simp [buyPhase1, hpi] at h; subst h; rfl
    | some idx =>
      by_cases h1 : 0 ≤ idx ∧ idx < 1000000
      · by_cases h2 : validColor req.color = true
        · cases hin : req.intensity with
          | none => simp [buyPhase1, hpi, hin, h1, h2] at h; subst h; rfl
          | some j =>
            by_cases h3 : 0 ≤ j ∧ j ≤ 30
            · cases hu : assocFind uid st.users with
              | none =>
                simp [buyPhase1, hpi, hin, h1, h2, h3, hu] at h; subst h; rfl
              | some bal =>
                by_cases h4 : bal < priceCentsForBuyCount (cellBuyCount st idx)
                · simp [buyPhase1, hpi, hin, h1, h2, h3, hu, h4] at h
                  subst h; rfl
                · simp [buyPhase1, hpi, hin, h1, h2, h3, hu, h4] at h
            · simp [buyPhase1, hpi, hin, h1, h2, h3] at h; subst h; rfl
        · simp [buyPhase1, hpi, h1, h2] at h; subst h; rfl
      · simp [buyPhase1, hpi, h1] at h; subst h; rfl

/-- C1: the purchase handler is all-or-nothing.  Every attempt that fails
— at validation, price resolution, the balance check, or inside the
transaction — returns the state exactly as it was; every successful
attempt comes from a committed transaction that applies the wallet debit,
the cell write, and the audit append together. -/
theorem buy_all_or_nothing (st : State) (uid? : Option String)
    (req : BuyRequest) :
    ((buyHandler st uid? req).2.isOk = false → (buyHandler st uid? req).1 = st) ∧
    ((buyHandler st uid? req).2.isOk = true →
      ∃ p, buyPhase1 st uid? req = .ok p ∧
        buyTx st p = some (buyHandler st uid? req).1 ∧
        AllThreeEffects st (buyHandler st uid? req).1 p) := by
  cases hp : buyPhase1 st uid? req with
  | error r =>
    have hr := buyPhase1_error_not_ok st uid? req r hp
    constructor
    · intro _
      simp [buyHandler, hp]
    · intro hok
      simp only [buyHandler, hp] at hok
      exact absurd hok (by simp [hr])
  | ok p =>
    cases htx : buyTx st p with
    | none =>
      constructor
      · intro _
        simp [buyHandler, hp, htx]
      · intro hok
        simp only [buyHandler, hp, htx] at hok
        cases hok
    | some st' =>
      constructor
      · intro hok
        simp only [buyHandler, hp, htx, BuyResponse.isOk] at hok
        simp at hok
      · intro _
        refine ⟨p, rfl, ?_, ?_⟩
        · simp only [buyHandler, hp, htx]
        · simp only [buyHandler, hp, htx]
          exact buyTx_effects st p st' htx

/-- Witness for C1: at balance 0 the attempt on cell 42 fails and changes
nothing; at balance 100 it succeeds with all three effects applied. -/
theorem buy_all_or_nothing_witness :
    (buyHandler stZeroBalance (some "u") reqCell42).1 = stZeroBalance ∧
    (∃ p, buyPhase1 stFresh (some "u") reqCell42 = .ok p ∧
      buyTx stFresh p = some (buyHandler stFresh (some "u") reqCell42).1 ∧
      AllThreeEffects stFresh (buyHandler stFresh (some "u") reqCell42).1 p) :=
  ⟨(buy_all_or_nothing stZeroBalance (some "u") reqCell42).1 (by rfl),
   (buy_all_or_nothing stFresh (some "u") reqCell42).2 (by rfl)⟩

/-- Witness for C7: a request with a malformed color is rejected with no
state change. -/
theorem buy_validation_invalid_input_iff_witness :
    (buyHandler stFresh (some "u") ⟨some 42, "red", some 10⟩).1 = stFresh :=
  (buy_validation_invalid_input_iff stFresh "u" ⟨some 42, "red", some 10⟩).2
    (by decide)

/-- C5: for every valid range the window query answers 200 with a mapping
that contains an entry `(i, (color, intensity, buyCount))` exactly when
the store holds a row for index `i` with those values and `start ≤ i <
end`: every present cell in range appears with its stored tuple, every
absent cell is omitted, and nothing outside the range appears. -/
theorem window_query_exactly_present_cells (st : State) (s e : Int)
    (hvalid : 0 ≤ s ∧ s < e ∧ e - s ≤ 20000) :
    ∃ out, pixelsGetHandler st (some s) (some e) = .ok out ∧
      ∀ (i : Int) (col : String) (inten cnt : Int),
        (i, (col, inten, cnt)) ∈ out ↔
          ((i, Cell.mk col inten cnt) ∈ st.pixels ∧ s ≤ i ∧ i < e) := by
  have hc : ¬(s < 0 ∨ e ≤ s ∨ e - s > 20000) := by omega
  have hps : pixelsGetHandler st (some s) (some e) =
      .ok ((st.pixels.filter (fun q => s ≤ q.1 ∧ q.1 < e)).map
        (fun q => (q.1, (q.2.color, q.2.intensity, q.2.buyCount)))) := by
    unfold pixelsGetHandler
    simp only [Option.getD_some]
    rw [if_neg hc]
  refine ⟨_, hps, ?_⟩
  intro i col inten cnt
  simp only [List.mem_map, List.mem_filter, decide_eq_true_eq, Prod.exists]
  constructor
  · rintro ⟨j, c, ⟨hmem, hrange⟩, heq⟩
    obtain ⟨c1, c2, c3⟩ := c
    simp only [Prod.mk.injEq] at heq
    obtain ⟨rfl, rfl, rfl, rfl⟩ := heq
    exact ⟨hmem, hrange⟩
  · rintro ⟨hmem, hs, he⟩
    exact ⟨i, Cell.mk col inten cnt, ⟨hmem, hs, he⟩, rfl⟩

/-- Witness for C5 on the store holding only cell 7, with the range
`[0, 100)`. -/
theorem window_query_exactly_present_cells_witness :
    ∃ out, pixelsGetHandler stCell7Once (some 0) (some 100) = .ok out ∧
      ∀ (i : Int) (col : String) (inten cnt : Int),
        (i, (col, inten, cnt)) ∈ out ↔
          ((i, Cell.mk col inten cnt) ∈ stCell7Once.pixels ∧ 0 ≤ i ∧ i < 100) :=
  window_query_exactly_present_cells stCell7Once 0 100 (by decide)

/-- Helper: an `isOk` response is a 200 with some price and count. -/
theorem isOk_exists (r : BuyResponse) (h : r.isOk = true) :
    ∃ p a, r = .ok p a := by
  cases r <;> first
    | exact ⟨_, _, rfl⟩
    | exact absurd h (by decide)

/-- Helper: on a natural count the price function is exactly `2 ^ count`
cents. -/
theorem priceCentsForBuyCount_natCast (m : Nat) :
    priceCentsForBuyCount (m : Int) = (2 : Int) ^ m := by
  unfold priceCentsForBuyCount
  rw [mul_one, max_eq_right (Int.natCast_nonneg m), Int.toNat_natCast]

/-- Helper: a plan produced by the pre-transaction phase carries the
request's inputs and the values read from the current state: the cell's
current count and the price computed from it. -/
theorem buyPhase1_ok_fields (st : State) (uid : String) (req : BuyRequest)
    (p : Plan) (h : buyPhase1 st (some uid) req = .ok p) :
    p.uid = uid ∧ req.pixelIndex = some p.idx ∧ p.color = req.color ∧
    req.intensity = some p.inten ∧
    p.existing = assocFind p.idx st.pixels ∧
    p.buyCount = cellBuyCount st p.idx ∧
    p.priceCents = priceCentsForBuyCount p.buyCount := by
  cases hpi : req.pixelIndex with
  | none => simp [buyPhase1, hpi] at h
  | some idx =>
    by_cases h1 : 0 ≤ idx ∧ idx < 1000000
    · by_cases h2 : validColor req.color = true
      · cases hin : req.intensity with
        | none => simp [buyPhase1, hpi, hin, h1, h2] at h
        | some j =>
          by_cases h3 : 0 ≤ j ∧ j ≤ 30
          · cases hu : assocFind uid st.users with
            | none => simp [buyPhase1, hpi, hin, h1, h2, h3, hu] at h
            | some bal =>
              by_cases h4 : bal < priceCentsForBuyCount (cellBuyCount st idx)
              · simp [buyPhase1, hpi, hin, h1, h2, h3, hu, h4] at h
              · obtain ⟨pu, pidx, pc, pn, pe, pb, pp⟩ := p
                simp [buyPhase1, hpi, hin, h1, h2, h3, hu, h4] at h
                obtain ⟨rfl, rfl, rfl, rfl, rfl, rfl, rfl⟩ := h
                exact ⟨rfl, rfl, rfl, rfl, rfl, rfl, rfl⟩
          · simp [buyPhase1, hpi, hin, h1, h2, h3] at h
      · simp [buyPhase1, hpi, h1, h2] at h
    · simp [buyPhase1, hpi, h1] at h

/-- Helper: one successful purchase is charged the price computed from the
cell's current count, reports that count plus one, and leaves the row's
stored count incremented by exactly one. -/
theorem buy_step (st : State) (uid : String) (req : BuyRequest) (idx : Int)
    (hidx : req.pixelIndex = some idx) (p a : Int)
    (h : (buyHandler st (some uid) req).2 = .ok p a) :
    p = priceCentsForBuyCount (cellBuyCount st idx) ∧
    a = cellBuyCount st idx + 1 ∧
    cellBuyCount (buyHandler st (some uid) req).1 idx
      = cellBuyCount st idx + 1 := by
  cases hp : buyPhase1 st (some uid) req with
  | error r =>
    have hr := buyPhase1_error_not_ok st (some uid) req r hp
    simp only [buyHandler, hp] at h
    rw [h] at hr
    simp [BuyResponse.isOk] at hr
  | ok plan =>
    obtain ⟨hu, hpidx, hcol, hint, hex, hbc, hpc⟩ :=
      buyPhase1_ok_fields st uid req plan hp
    have hidx' : plan.idx = idx := by
      rw [hidx] at hpidx
      injection hpidx with h'
      exact h'.symm
    subst hidx'
    cases htx : buyTx st plan with
    | none =>
      simp only [buyHandler, hp, htx] at h
      cases h
    | some st' =>
      simp only [buyHandler, hp, htx] at h ⊢
      obtain ⟨rfl, rfl⟩ : plan.priceCents = p ∧ plan.buyCount + 1 = a := by
        injection h with h1 h2
        exact ⟨h1, h2⟩
      refine ⟨by rw [hpc, hbc], by rw [hbc], ?_⟩
      obtain ⟨hdeb, hpix, haud⟩ := buyTx_effects st plan st' htx
      cases hexc : plan.existing with
      | some c =>
        rw [hexc] at hpix
        obtain ⟨v, hv1, hv2⟩ :=
          assocUpdate_find plan.idx _ st.pixels st'.pixels hpix
        simp [cellBuyCount, hv1, hv2]
      | none =>
        rw [hexc] at hpix
        have hfind : assocFind plan.idx st.pixels = none := by rw [← hex, hexc]
        simp [cellBuyCount, hpix, hfind, assocFind]

/-- Helper: induction core for the purchase sequence, generalized over the
starting count m: k successful resubmissions yield the responses
`ok (2^(m+i)) (m+i+1)` for i = 0..k-1 and leave the stored count at
m + k. -/
theorem buy_seq_aux (uid : String) (req : BuyRequest) (idx : Int)
    (hidx : req.pixelIndex = some idx) :
    ∀ (k : Nat) (st : State) (m : Nat),
      cellBuyCount st idx = (m : Int) →
      (∀ r ∈ (buyIter uid req k st).2, r.isOk = true) →
      (buyIter uid req k st).2 =
        (List.range k).map
          (fun i => BuyResponse.ok ((2 : Int) ^ (m + i)) ((m + i + 1 : Nat) : Int)) ∧
      cellBuyCount (buyIter uid req k st).1 idx = ((m + k : Nat) : Int) := by
  intro k
  induction k with
  | zero =>
    intro st m hm _
    refine ⟨rfl, ?_⟩
    simpa [buyIter] using hm
  | succ n ih =>
    intro st m hm hok
    have hiter : buyIter uid req (Nat.succ n) st =
        ((buyIter uid req n (buyHandler st (some uid) req).1).1,
         (buyHandler st (some uid) req).2 ::
           (buyIter uid req n (buyHandler st (some uid) req).1).2) := rfl
    rw [hiter] at hok ⊢
    have hr : (buyHandler st (some uid) req).2.isOk = true :=
      hok _ (List.mem_cons_self _ _)
    obtain ⟨p, a, hpa⟩ := isOk_exists _ hr
    obtain ⟨hp1, ha1, hc1⟩ := buy_step st uid req idx hidx p a hpa
    have hm1 : cellBuyCount (buyHandler st (some uid) req).1 idx
        = ((m + 1 : Nat) : Int) := by
      rw [hc1, hm]
      push_cast
      ring
    have hok' : ∀ r ∈ (buyIter uid req n (buyHandler st (some uid) req).1).2,
        r.isOk = true := fun r hr' => hok r (List.mem_cons_of_mem _ hr')
    obtain ⟨hlist, hcount⟩ := ih (buyHandler st (some uid) req).1 (m + 1) hm1 hok'
    constructor
    · rw [List.range_succ_eq_map, List.map_cons, List.map_map]
      have hhead : (buyHandler st (some uid) req).2 =
          BuyResponse.ok ((2 : Int) ^ (m + 0)) ((m + 0 + 1 : Nat) : Int) := by
        rw [hpa, hp1, ha1, hm]
        rw [priceCentsForBuyCount_natCast]
        norm_num
      rw [hhead, hlist]
      refine congrArg₂ _ rfl (List.map_congr_left ?_)
      intro i _
      simp only [Function.comp]
      have e1 : m + 1 + i = m + Nat.succ i := by omega
      rw [e1]
    · rw [hcount]
      congr 1
      omega

/-- C2: starting from a virgin cell (stored count 0), every sequence of k
successful purchases of that cell is charged `1 * 2^(i-1)` cents on the
i-th purchase, reports exactly `(priceCents, purchaseCountAfter) =
(2^(i-1), i)` in the i-th response, and leaves the cell's stored count at
k. -/
theorem buy_sequence_doubles_price (uid : String) (req : BuyRequest)
    (idx : Int) (hidx : req.pixelIndex = some idx) (k : Nat) (st : State)
    (hvirgin : cellBuyCount st idx = 0)
    (hok : ∀ r ∈ (buyIter uid req k st).2, r.isOk = true) :
    (buyIter uid req k st).2 =
      (List.range k).map
        (fun i => BuyResponse.ok ((2 : Int) ^ i) ((i + 1 : Nat) : Int)) ∧
    cellBuyCount (buyIter uid req k st).1 idx = (k : Int) := by
  have h := buy_seq_aux uid req idx hidx k st 0 (by simpa using hvirgin) hok
  simpa using h

/-- Witness for C2: two successful purchases of virgin cell 42 from
balance 100 are charged 1 then 2 cents, report counts 1 then 2, and leave
the stored count at 2. -/
theorem buy_sequence_doubles_price_witness :
    (buyIter "u" reqCell42 2 stFresh).2 =
      (List.range 2).map
        (fun i => BuyResponse.ok ((2 : Int) ^ i) ((i + 1 : Nat) : Int)) ∧
    cellBuyCount (buyIter "u" reqCell42 2 stFresh).1 42 = (2 : Int) :=
  buy_sequence_doubles_price "u" reqCell42 42 rfl 2 stFresh (by rfl) (by decide)
